import Mathlib

/-!
Shallow embedding of `ezmongo.js` (the EZMongo convenience layer over the
mongoose driver) and proofs about its hook registry, CRUD operation runner,
connection lifecycle, and document wrapper.

Conventions of the embedding:
* JavaScript exceptions become the `Res.err` outcome; side effects performed
  before a throw persist, so both outcomes of `Res` carry the final state.
* Asynchronous sequencing (`await` chains, `.then`) becomes `Res.andThen`.
* The external mongoose driver is passed in as explicit function parameters;
  this layer only sequences calls into it.
-/

namespace EzMongo

/-- Errors thrown inside the layer, by user callbacks, or by the driver. -/
inductive JsError where
  /-- `Invalid middleware hook: <name>` thrown by `use` and `runMiddleware`. -/
  | invalidHook (name : String)
  /-- `Middleware instance is required` thrown by `runMiddleware`. -/
  | middlewareRequired
  /-- `Document with ID <id> not found` thrown inside `findById`. -/
  | notFound (id : String)
  /-- An arbitrary error raised by a user callback or by the driver. -/
  | external (code : Nat)
  /-- `TypeError` raised when an `Object.prototype`-inherited property value
  is pushed to (it has no `.push`) or iterated (it is not iterable). -/
  | typeError
deriving DecidableEq

/-- Outcome of an async computation over a mutable world `σ`.  A JavaScript
throw does not undo side effects already performed, so the error outcome
carries the final world as well. -/
inductive Res (σ α : Type) where
  | ok (s : σ) (a : α)
  | err (s : σ) (e : JsError)
deriving DecidableEq

/-- `await` one step and continue; a thrown error short-circuits the rest. -/
def Res.andThen : Res σ α → (σ → α → Res σ β) → Res σ β
  | .ok s a, f => f s a
  | .err s e, _ => .err s e

/-- A mongoose document: its identity, its plain data (`_doc`), and the
driver-maintained `isNew` flag. -/
structure MongooseDoc where
  _id : Option String
  fields : List (String × String)
  isNew : Bool
deriving DecidableEq

/-- The untyped JavaScript values this layer passes to hooks and returns from
operations. `handle d` stands for `new MongoDocument(d)` (whose registry and
listener table are fresh); `handles ds` stands for an array of such wrappers. -/
inductive JsVal where
  | null
  | str (s : String)
  | num (n : Int)
  | plain (fields : List (String × String))
  | mdoc (d : MongooseDoc)
  | handle (d : MongooseDoc)
  | handles (ds : List MongooseDoc)
  | rawResult (n : Nat)
deriving DecidableEq

/-- A registered middleware callback: receives the spread argument list and
the current world; its resolved value is discarded by `run`. -/
def Callback (V σ : Type) : Type := List V → σ → Res σ Unit

/-- Result of a JavaScript property access on a plain object literal: the
value of an own key, a property inherited from `Object.prototype` (always a
truthy non-array value — a function, or the prototype object itself for
`__proto__`), or `undefined`. -/
inductive PropVal (α : Type) where
  | own (a : α)
  | inherited
  | undefined
deriving DecidableEq

/-- The property names every plain object literal inherits from
`Object.prototype`: accessing any of them yields a truthy non-array value
even though the name was never registered as an own key. -/
def objectProtoKeys : List String :=
  ["constructor", "hasOwnProperty", "isPrototypeOf", "propertyIsEnumerable",
   "toLocaleString", "toString", "valueOf", "__proto__",
   "__defineGetter__", "__defineSetter__", "__lookupGetter__",
   "__lookupSetter__"]

/-- `this.middlewareStack`: the object literal with exactly the eight
camel-case hook names as keys, each mapped to an ordered callback list. -/
structure MongoMiddleware (V σ : Type) where
  beforeCreate : List (Callback V σ)
  afterCreate : List (Callback V σ)
  beforeRead : List (Callback V σ)
  afterRead : List (Callback V σ)
  beforeUpdate : List (Callback V σ)
  afterUpdate : List (Callback V σ)
  beforeDelete : List (Callback V σ)
  afterDelete : List (Callback V σ)

namespace MongoMiddleware

/-- The `MongoMiddleware` constructor: every hook key maps to an empty list. -/
def new : MongoMiddleware V σ := ⟨[], [], [], [], [], [], [], []⟩

/-- The static `Hooks` table, as a property map.  JavaScript property access
`MongoMiddleware.Hooks[k]` yields the camel-case hook string when `k` is one
of the eight UPPER-CASE own keys, a truthy inherited value when `k` is an
`Object.prototype` property name, and `undefined` otherwise. -/
def Hooks (k : String) : PropVal String :=
  if k = "BEFORE_CREATE" then .own "beforeCreate"
  else if k = "AFTER_CREATE" then .own "afterCreate"
  else if k = "BEFORE_READ" then .own "beforeRead"
  else if k = "AFTER_READ" then .own "afterRead"
  else if k = "BEFORE_UPDATE" then .own "beforeUpdate"
  else if k = "AFTER_UPDATE" then .own "afterUpdate"
  else if k = "BEFORE_DELETE" then .own "beforeDelete"
  else if k = "AFTER_DELETE" then .own "afterDelete"
  else if k ∈ objectProtoKeys then .inherited
  else .undefined

/-- The eight recognized hook identifiers (the values of `Hooks`, and the own
keys of `middlewareStack`). -/
def hookValues : List String :=
  ["beforeCreate", "afterCreate", "beforeRead", "afterRead",
   "beforeUpdate", "afterUpdate", "beforeDelete", "afterDelete"]

/-- JavaScript property access `this.middlewareStack[when]`: the stored list
when `when` is one of the eight own keys, a truthy non-array value inherited
from `Object.prototype` for names like `constructor` or `toString`, and
`undefined` otherwise. -/
def stackLookup (m : MongoMiddleware V σ) (when : String) :
    PropVal (List (Callback V σ)) :=
  if when = "beforeCreate" then .own m.beforeCreate
  else if when = "afterCreate" then .own m.afterCreate
  else if when = "beforeRead" then .own m.beforeRead
  else if when = "afterRead" then .own m.afterRead
  else if when = "beforeUpdate" then .own m.beforeUpdate
  else if when = "afterUpdate" then .own m.afterUpdate
  else if when = "beforeDelete" then .own m.beforeDelete
  else if when = "afterDelete" then .own m.afterDelete
  else if when ∈ objectProtoKeys then .inherited
  else .undefined

/-- Property write `this.middlewareStack[when] = l` (a no-op off the eight
own keys, which registration never reaches). -/
def stackSet (m : MongoMiddleware V σ) (when : String)
    (l : List (Callback V σ)) : MongoMiddleware V σ :=
  if when = "beforeCreate" then { m with beforeCreate := l }
  else if when = "afterCreate" then { m with afterCreate := l }
  else if when = "beforeRead" then { m with beforeRead := l }
  else if when = "afterRead" then { m with afterRead := l }
  else if when = "beforeUpdate" then { m with beforeUpdate := l }
  else if when = "afterUpdate" then { m with afterUpdate := l }
  else if when = "beforeDelete" then { m with beforeDelete := l }
  else if when = "afterDelete" then { m with afterDelete := l }
  else m

/-- `use(when, fn)`: `if (this.middlewareStack[when])` is a truthiness test.
An own key holds an array (truthy even when empty), so the callback is
pushed; an `Object.prototype`-inherited name is truthy too, but its value
has no `.push`, so the call throws a `TypeError`; otherwise the lookup is
`undefined` (falsy) and `use` throws `Invalid middleware hook: <when>`. -/
def use (m : MongoMiddleware V σ) (when : String) (fn : Callback V σ) :
    Except JsError (MongoMiddleware V σ) :=
  match stackLookup m when with
  | .own l => .ok (stackSet m when (l ++ [fn]))
  | .inherited => .error .typeError
  | .undefined => .error (.invalidHook when)

/-- The `for (let fn of fns) await fn(...args)` loop of `run`: each callback
is awaited to completion before the next starts; a throw stops the loop. -/
def runFns : List (Callback V σ) → List V → σ → Res σ Unit
  | [], _, s => .ok s ()
  | fn :: rest, args, s =>
    match fn args s with
    | .ok s1 _ => runFns rest args s1
    | .err s1 e => .err s1 e

/-- `run(when, ...args)`: `this.middlewareStack[when] || []` keeps any truthy
lookup — an own array, or an inherited non-array — and falls back to the
empty list only for `undefined`; the `for…of` loop then iterates an own
array normally and throws a `TypeError` on an inherited non-iterable. -/
def run (m : MongoMiddleware V σ) (when : String) (args : List V) (s : σ) :
    Res σ Unit :=
  match stackLookup m when with
  | .own l => runFns l args s
  | .inherited => .err s .typeError
  | .undefined => runFns [] args s

/-- Register a list of callbacks one `use` call at a time (in order). -/
def registerAll (m : MongoMiddleware V σ) (when : String) :
    List (Callback V σ) → Except JsError (MongoMiddleware V σ)
  | [] => .ok m
  | fn :: rest =>
    match use m when fn with
    | .ok m1 => registerAll m1 when rest
    | .error e => .error e

end MongoMiddleware

/-- The `hooks` argument of `runCRUDOperation`:
`{ before: <hook name>, after: <hook name> }`. -/
structure HookPair where
  before : String
  after : String
deriving DecidableEq

namespace MongoHelperClass

/-- `MongoHelperClass.runMiddleware(middleware, hook, ...args)`: require a
middleware instance, then validate `hook` by the truthiness of
`MongoMiddleware.Hooks[hook]` — a lookup among the UPPER-CASE *keys* of the
constant table (or an inherited `Object.prototype` property, which is truthy
as well), not among its camel-case *values* — before delegating to
`middleware.run(hook, ...args)`. -/
def runMiddleware (middleware : Option (MongoMiddleware V σ)) (hook : String)
    (args : List V) (s : σ) : Res σ Unit :=
  match middleware with
  | none => .err s .middlewareRequired
  | some m =>
    match MongoMiddleware.Hooks hook with
    | .undefined => .err s (.invalidHook hook)
    | _ => m.run hook args s

/-- `MongoHelperClass.runCRUDOperation(operation, middleware, hooks,
operationName, ...args)`: before-hook with the spread `args`, then the
operation, then after-hook with the single result; the `catch` clause only
logs and rethrows, so every error propagates unchanged.  Note that every
call site in the source passes its first data argument in the
`operationName` position. -/
def runCRUDOperation (operation : List V → σ → Res σ V)
    (middleware : Option (MongoMiddleware V σ)) (hooks : HookPair)
    (operationName : V) (args : List V) (s : σ) : Res σ V :=
  (runMiddleware middleware hooks.before args s).andThen fun s1 _ =>
    (operation args s1).andThen fun s2 result =>
      (runMiddleware middleware hooks.after [result] s2).andThen fun s3 _ =>
        .ok s3 result

end MongoHelperClass

/-- `MongoConnection`: connection string, database name, connected flag. -/
structure MongoConnection where
  connectionString : String
  dbName : String
  isConnected : Bool
deriving DecidableEq

namespace MongoConnection

/-- `connect()`: a no-op when already connected; otherwise attempt the
mongoose connection (its outcome supplied by the environment as `attempt`),
set the flag only on success, and rethrow the error on failure. -/
def connect (c : MongoConnection) (attempt : Option JsError) :
    MongoConnection × Option JsError :=
  if c.isConnected then (c, none)
  else
    match attempt with
    | none => ({ c with isConnected := true }, none)
    | some e => (c, some e)

/-- `close()`: a no-op when not connected; otherwise attempt the disconnect,
clear the flag only on success, and rethrow the error on failure. -/
def close (c : MongoConnection) (attempt : Option JsError) :
    MongoConnection × Option JsError :=
  if c.isConnected then
    match attempt with
    | none => ({ c with isConnected := false }, none)
    | some e => (c, some e)
  else (c, none)

end MongoConnection

namespace MongoCollection

/-- The operation closure of `create(document)`: build a mongoose document
from `document` and save it through the driver.  It ignores the spread
arguments and closes over `document` itself. -/
def createOp (driverSave : JsVal → σ → Res σ JsVal) (document : JsVal) :
    List JsVal → σ → Res σ JsVal :=
  fun _args s => driverSave document s

/-- `create(document)`: run the closure under the create hook pair;
`document` occupies the `operationName` slot, so the spread `args` are empty. -/
def create (driverSave : JsVal → σ → Res σ JsVal)
    (middleware : MongoMiddleware JsVal σ) (document : JsVal) (s : σ) :
    Res σ JsVal :=
  MongoHelperClass.runCRUDOperation (createOp driverSave document)
    (some middleware) ⟨"beforeCreate", "afterCreate"⟩ document [] s

/-- The operation closure of `findById(id)`: query the driver, throw
`Document with ID <id> not found` when nothing matches, otherwise wrap the
record in a fresh `MongoDocument`. -/
def findByIdOp (driverFindById : String → σ → Res σ (Option MongooseDoc))
    (id : String) : List JsVal → σ → Res σ JsVal :=
  fun _args s =>
    (driverFindById id s).andThen fun s1 found =>
      match found with
      | none => .err s1 (.notFound id)
      | some d => .ok s1 (.handle d)

/-- `findById(id)`: run the closure under the read hook pair; `id` occupies
the `operationName` slot. -/
def findById (driverFindById : String → σ → Res σ (Option MongooseDoc))
    (middleware : MongoMiddleware JsVal σ) (id : String) (s : σ) :
    Res σ JsVal :=
  MongoHelperClass.runCRUDOperation (findByIdOp driverFindById id)
    (some middleware) ⟨"beforeRead", "afterRead"⟩ (.str id) [] s

/-- The operation closure of `read`: fetch all matching records and wrap each
in a fresh `MongoDocument`. -/
def readOp (driverFind : JsVal → JsVal → JsVal → σ → Res σ (List MongooseDoc))
    (query projection options : JsVal) : List JsVal → σ → Res σ JsVal :=
  fun _args s =>
    (driverFind query projection options s).andThen fun s1 ds =>
      .ok s1 (.handles ds)

/-- `read(query, projection, options)`: run the closure under the read hook
pair; `query` occupies the `operationName` slot, so the spread `args` are
only `[projection, options]`. -/
def read (driverFind : JsVal → JsVal → JsVal → σ → Res σ (List MongooseDoc))
    (middleware : MongoMiddleware JsVal σ) (query projection options : JsVal)
    (s : σ) : Res σ JsVal :=
  MongoHelperClass.runCRUDOperation (readOp driverFind query projection options)
    (some middleware) ⟨"beforeRead", "afterRead"⟩ query [projection, options] s

/-- The operation closure of `readOne`: fetch one record; wrap it when found,
return `null` (not an error) when nothing matches. -/
def readOneOp
    (driverFindOne : JsVal → JsVal → JsVal → σ → Res σ (Option MongooseDoc))
    (query projection options : JsVal) : List JsVal → σ → Res σ JsVal :=
  fun _args s =>
    (driverFindOne query projection options s).andThen fun s1 found =>
      match found with
      | some d => .ok s1 (.handle d)
      | none => .ok s1 .null

/-- `readOne(query, projection, options)`: run the closure under the read
hook pair; `query` occupies the `operationName` slot. -/
def readOne
    (driverFindOne : JsVal → JsVal → JsVal → σ → Res σ (Option MongooseDoc))
    (middleware : MongoMiddleware JsVal σ) (query projection options : JsVal)
    (s : σ) : Res σ JsVal :=
  MongoHelperClass.runCRUDOperation
    (readOneOp driverFindOne query projection options)
    (some middleware) ⟨"beforeRead", "afterRead"⟩ query [projection, options] s

/-- `update(query, updateDoc, options)`: `findOneAndUpdate` through the
driver under the update hook pair, returning the raw driver result;
`query` occupies the `operationName` slot. -/
def update
    (driverFindOneAndUpdate : JsVal → JsVal → JsVal → σ → Res σ JsVal)
    (middleware : MongoMiddleware JsVal σ) (query updateDoc options : JsVal)
    (s : σ) : Res σ JsVal :=
  MongoHelperClass.runCRUDOperation
    (fun _args s1 => driverFindOneAndUpdate query updateDoc options s1)
    (some middleware) ⟨"beforeUpdate", "afterUpdate"⟩ query
    [updateDoc, options] s

/-- `delete(query)`: `deleteOne` through the driver under the delete hook
pair; `query` occupies the `operationName` slot. -/
def delete (driverDeleteOne : JsVal → σ → Res σ JsVal)
    (middleware : MongoMiddleware JsVal σ) (query : JsVal) (s : σ) :
    Res σ JsVal :=
  MongoHelperClass.runCRUDOperation
    (fun _args s1 => driverDeleteOne query s1)
    (some middleware) ⟨"beforeDelete", "afterDelete"⟩ query [] s

/-- `deleteMany(query)`: `deleteMany` through the driver under the delete
hook pair; `query` occupies the `operationName` slot. -/
def deleteMany (driverDeleteMany : JsVal → σ → Res σ JsVal)
    (middleware : MongoMiddleware JsVal σ) (query : JsVal) (s : σ) :
    Res σ JsVal :=
  MongoHelperClass.runCRUDOperation
    (fun _args s1 => driverDeleteMany query s1)
    (some middleware) ⟨"beforeDelete", "afterDelete"⟩ query [] s

end MongoCollection

/-- The mutable state of one `MongoDocument` wrapper: the wrapped mongoose
document, the `document` property assigned by `save`, the `EventEmitter`
listener table, and the record of listener invocations performed by `emit`
(event name paired with the listener's identifier).  The handle-level
middleware registry is passed to the operations as a separate parameter,
because its callbacks are functions over this very state. -/
structure MongoDocument where
  originalDocument : MongooseDoc
  document : Option MongooseDoc
  listeners : List (String × Nat)
  fired : List (String × Nat)
deriving DecidableEq

namespace MongoDocument

/-- `EventEmitter.emit(name, this)`: invoke every listener registered under
`name`, in registration order; each invocation is recorded in `fired`. -/
def emit (name : String) (w : MongoDocument) : MongoDocument :=
  { w with
    fired := w.fired ++
      (w.listeners.filter (fun p => p.1 = name)).map (fun p => (name, p.2)) }

/-- The `MongoDocument` constructor: wrap a mongoose document with a fresh
(empty) middleware registry, no listeners, and no `document` property. -/
def construct (d : MongooseDoc) :
    MongoDocument × MongoMiddleware JsVal MongoDocument :=
  (⟨d, none, [], []⟩, MongoMiddleware.new)

/-- `onSave(callback)`: subscribe `callback` to the event name `OnSave`. -/
def onSave (callback : Nat) (w : MongoDocument) : MongoDocument :=
  { w with listeners := w.listeners ++ [("OnSave", callback)] }

/-- `onUpdate(callback)`: subscribe `callback` to `OnUpdate`. -/
def onUpdate (callback : Nat) (w : MongoDocument) : MongoDocument :=
  { w with listeners := w.listeners ++ [("OnUpdate", callback)] }

/-- `onDelete(callback)`: subscribe `callback` to `OnDelete`. -/
def onDelete (callback : Nat) (w : MongoDocument) : MongoDocument :=
  { w with listeners := w.listeners ++ [("OnDelete", callback)] }

/-- The `.then` continuation of `update`: emit `OnUpdate`, then overwrite
`originalDocument` with the driver's updated record. -/
def updateThen (updated : JsVal) (w : MongoDocument) : Res MongoDocument JsVal :=
  let w1 := emit "OnUpdate" w
  match updated with
  | .mdoc d => .ok { w1 with originalDocument := d } updated
  | other => .ok w1 other

/-- `update(updatedFields)`: `findOneAndUpdate` keyed by the handle's `_id`
with a `$set` of the supplied fields, under the update hook pair
(`updatedFields` occupies the `operationName` slot), then the `.then`
continuation. -/
def update
    (driverFindOneAndUpdate :
      Option String → JsVal → MongoDocument → Res MongoDocument MongooseDoc)
    (middleware : MongoMiddleware JsVal MongoDocument)
    (updatedFields : JsVal) (w : MongoDocument) : Res MongoDocument JsVal :=
  (MongoHelperClass.runCRUDOperation
    (fun _args w1 =>
      (driverFindOneAndUpdate w1.originalDocument._id updatedFields w1).andThen
        fun w2 d => .ok w2 (.mdoc d))
    (some middleware) ⟨"beforeUpdate", "afterUpdate"⟩ updatedFields [] w).andThen
    fun w3 v => updateThen v w3

/-- The `.then` continuation of `save`: emit `OnCreate` or `OnUpdate`
according to the `isNew` flag as it stands *after* the operation, then
assign the `document` property. -/
def saveThen (saved : JsVal) (w : MongoDocument) : Res MongoDocument JsVal :=
  let w1 := emit (if w.originalDocument.isNew then "OnCreate" else "OnUpdate") w
  match saved with
  | .mdoc d => .ok { w1 with document := some d } saved
  | other => .ok w1 other

/-- `save()`: dispatch through the create hook pair when the wrapped document
is new (as read at entry), else through the update hook pair; the operation
closure re-reads `isNew` and either saves through the driver or recursively
calls `update(this.originalDocument)`; then the `.then` continuation. -/
def save
    (driverDocSave : MongoDocument → Res MongoDocument MongooseDoc)
    (driverFindOneAndUpdate :
      Option String → JsVal → MongoDocument → Res MongoDocument MongooseDoc)
    (middleware : MongoMiddleware JsVal MongoDocument)
    (w : MongoDocument) : Res MongoDocument JsVal :=
  (MongoHelperClass.runCRUDOperation
    (fun _args w1 =>
      if w1.originalDocument.isNew then
        (driverDocSave w1).andThen fun w2 d => .ok w2 (.mdoc d)
      else
        update driverFindOneAndUpdate middleware (.mdoc w1.originalDocument) w1)
    (some middleware)
    (if w.originalDocument.isNew then ⟨"beforeCreate", "afterCreate"⟩
     else ⟨"beforeUpdate", "afterUpdate"⟩)
    (.mdoc w.originalDocument) [] w).andThen
    fun w3 v => saveThen v w3

/-- The `.then` continuation of `delete`: emit `OnDelete` and pass the driver
result through. -/
def deleteThen (deleted : JsVal) (w : MongoDocument) : Res MongoDocument JsVal :=
  .ok (emit "OnDelete" w) deleted

/-- `delete()`: `deleteOne` through the driver under the delete hook pair
(the wrapped document occupies the `operationName` slot), then the `.then`
continuation. -/
def delete (driverDeleteOne : MongoDocument → Res MongoDocument JsVal)
    (middleware : MongoMiddleware JsVal MongoDocument)
    (w : MongoDocument) : Res MongoDocument JsVal :=
  (MongoHelperClass.runCRUDOperation
    (fun _args w1 => driverDeleteOne w1)
    (some middleware) ⟨"beforeDelete", "afterDelete"⟩
    (.mdoc w.originalDocument) [] w).andThen
    fun w2 v => deleteThen v w2

/-- `copy()`: JSON-clone `_doc`, drop its `_id`, build a fresh mongoose
document from the clone (so `isNew` is true) and wrap it in a brand-new
`MongoDocument` via the constructor — fresh registry, no listeners.  The
whole method is synchronous: no driver call and no hook runs. -/
def copy (w : MongoDocument) :
    MongoDocument × MongoMiddleware JsVal MongoDocument :=
  construct ⟨none, w.originalDocument.fields, true⟩

end MongoDocument

/-- Instrumented callback number `i` over a trace world: append `i` to the
trace, then resolve or throw according to `fate i`. -/
def logger (fate : Nat → Option JsError) (i : Nat) : Callback V (List Nat) :=
  fun _args s =>
    match fate i with
    | none => .ok (s ++ [i]) ()
    | some e => .err (s ++ [i]) e

namespace MongoMiddleware

theorem lookup_new (h : String) (hmem : h ∈ hookValues) :
    stackLookup (new : MongoMiddleware V σ) h = .own [] := by
  fin_cases hmem <;> rfl

theorem lookup_set_self (m : MongoMiddleware V σ) (h : String)
    (hmem : h ∈ hookValues) (l : List (Callback V σ)) :
    stackLookup (stackSet m h l) h = .own l := by
  fin_cases hmem <;> rfl

theorem set_set (m : MongoMiddleware V σ) (h : String) (hmem : h ∈ hookValues)
    (a b : List (Callback V σ)) :
    stackSet (stackSet m h a) h b = stackSet m h b := by
  fin_cases hmem <;> rfl

theorem set_of_lookup (m : MongoMiddleware V σ) (h : String)
    (hmem : h ∈ hookValues) (l : List (Callback V σ))
    (hl : stackLookup m h = .own l) : stackSet m h l = m := by
  fin_cases hmem <;> (simp [stackLookup] at hl; subst hl; rfl)

theorem use_eq (m : MongoMiddleware V σ) (h : String)
    (l : List (Callback V σ)) (fn : Callback V σ)
    (hl : stackLookup m h = .own l) :
    use m h fn = .ok (stackSet m h (l ++ [fn])) := by
  unfold use
  rw [hl]

theorem lookup_undefined (m : MongoMiddleware V σ) (h : String)
    (hs : h ∉ hookValues) (hp : h ∉ objectProtoKeys) :
    stackLookup m h = .undefined := by
  simp only [hookValues, List.mem_cons, List.not_mem_nil, or_false,
    not_or] at hs
  obtain ⟨h1, h2, h3, h4, h5, h6, h7, h8⟩ := hs
  simp [stackLookup, h1, h2, h3, h4, h5, h6, h7, h8, hp]

theorem lookup_inherited (m : MongoMiddleware V σ) (h : String)
    (hs : h ∉ hookValues) (hp : h ∈ objectProtoKeys) :
    stackLookup m h = .inherited := by
  simp only [hookValues, List.mem_cons, List.not_mem_nil, or_false,
    not_or] at hs
  obtain ⟨h1, h2, h3, h4, h5, h6, h7, h8⟩ := hs
  simp [stackLookup, h1, h2, h3, h4, h5, h6, h7, h8, hp]

/-- No `Object.prototype` property name is a camel-case hook value. -/
theorem protoKeys_not_hookValues :
    ∀ x ∈ objectProtoKeys, x ∉ hookValues := by decide

/-- A `Hooks` lookup that hits the inherited chain names an
`Object.prototype` property. -/
theorem hooks_inherited_mem (hook : String)
    (hH : Hooks hook = .inherited) : hook ∈ objectProtoKeys := by
  unfold Hooks at hH
  split_ifs at hH with h1 h2 h3 h4 h5 h6 h7 h8 h9
  exact h9

/-- The UPPER-CASE own keys of the `Hooks` table are neither own keys of the
`middlewareStack` object (whose own keys are the camel-case values) nor
inherited names, so the stack lookup on them is `undefined`. -/
theorem lookup_of_hooks_key (m : MongoMiddleware V σ) (hook : String)
    (v : String) (hH : Hooks hook = .own v) : stackLookup m hook = .undefined := by
  unfold Hooks at hH
  split_ifs at hH with h1 h2 h3 h4 h5 h6 h7 h8 h9
  · subst h1; rfl
  · subst h2; rfl
  · subst h3; rfl
  · subst h4; rfl
  · subst h5; rfl
  · subst h6; rfl
  · subst h7; rfl
  · subst h8; rfl

/-- Evaluation of `run` on an absent key: the `|| []` fallback makes the
loop a no-op success. -/
theorem run_eq_of_undefined (m : MongoMiddleware V σ) (when : String)
    (args : List V) (s : σ) (h : stackLookup m when = .undefined) :
    run m when args s = .ok s () := by
  unfold run
  rw [h]
  rfl

/-- Evaluation of `run` on an inherited name: the truthy non-iterable value
survives `|| []` and the `for…of` loop throws a `TypeError`. -/
theorem run_eq_of_inherited (m : MongoMiddleware V σ) (when : String)
    (args : List V) (s : σ) (h : stackLookup m when = .inherited) :
    run m when args s = .err s .typeError := by
  unfold run
  rw [h]

theorem registerAll_eq (h : String) (hmem : h ∈ hookValues)
    (cbs : List (Callback V σ)) :
    ∀ (m : MongoMiddleware V σ) (l : List (Callback V σ)),
      stackLookup m h = .own l →
      registerAll m h cbs = .ok (stackSet m h (l ++ cbs)) := by
  induction cbs with
  | nil =>
    intro m l hl
    simp only [registerAll, List.append_nil]
    rw [set_of_lookup m h hmem l hl]
  | cons fn rest ih =>
    intro m l hl
    have hu : use m h fn = .ok (stackSet m h (l ++ [fn])) := use_eq m h l fn hl
    simp only [registerAll, hu]
    rw [ih (stackSet m h (l ++ [fn])) (l ++ [fn])
      (lookup_set_self m h hmem (l ++ [fn])),
      set_set m h hmem (l ++ [fn]) ((l ++ [fn]) ++ rest),
      List.append_assoc]
    rfl

theorem runFns_loggers_ok (fate : Nat → Option JsError) (args : List V) :
    ∀ (idxs : List Nat) (s : List Nat), (∀ i ∈ idxs, fate i = none) →
      runFns (idxs.map (logger fate)) args s = .ok (s ++ idxs) () := by
  intro idxs
  induction idxs with
  | nil => intro s _; simp [runFns]
  | cons a t ih =>
    intro s hall
    have ha : fate a = none := hall a (by simp)
    simp only [List.map_cons, runFns, logger, ha]
    rw [ih (s ++ [a]) (fun i hi => hall i (by simp [hi]))]
    simp

theorem runFns_loggers_err (fate : Nat → Option JsError) (args : List V)
    (k : Nat) (e : JsError) (post : List Nat) (hk : fate k = some e) :
    ∀ (pre : List Nat) (s : List Nat), (∀ i ∈ pre, fate i = none) →
      runFns ((pre ++ k :: post).map (logger fate)) args s
        = .err ((s ++ pre) ++ [k]) e := by
  intro pre
  induction pre with
  | nil =>
    intro s _
    simp only [List.nil_append, List.map_cons, runFns, logger, hk,
      List.append_nil]
  | cons a t ih =>
    intro s hall
    have ha : fate a = none := hall a (by simp)
    simp only [List.cons_append, List.map_cons, runFns, logger, ha,
      List.append_eq]
    rw [ih (s ++ [a]) (fun i hi => hall i (by simp [hi]))]
    simp

end MongoMiddleware

/-- Unfolding `runMiddleware` once its validation lookup is known to be
truthy (an own key of the `Hooks` table). -/
theorem runMiddleware_eq_run_of_own (m : MongoMiddleware V σ)
    (hook v : String) (args : List V) (s : σ)
    (hH : MongoMiddleware.Hooks hook = .own v) :
    MongoHelperClass.runMiddleware (some m) hook args s = m.run hook args s := by
  unfold MongoHelperClass.runMiddleware
  rw [hH]

/-- Unfolding `runMiddleware` once its validation lookup is known to be
truthy (an inherited `Object.prototype` name). -/
theorem runMiddleware_eq_run_of_inherited (m : MongoMiddleware V σ)
    (hook : String) (args : List V) (s : σ)
    (hH : MongoMiddleware.Hooks hook = .inherited) :
    MongoHelperClass.runMiddleware (some m) hook args s = m.run hook args s := by
  unfold MongoHelperClass.runMiddleware
  rw [hH]

/-- Unfolding `runMiddleware` once its validation lookup is known to be
`undefined`. -/
theorem runMiddleware_eq_err_of_undefined (m : MongoMiddleware V σ)
    (hook : String) (args : List V) (s : σ)
    (hH : MongoMiddleware.Hooks hook = .undefined) :
    MongoHelperClass.runMiddleware (some m) hook args s
      = Res.err s (.invalidHook hook) := by
  unfold MongoHelperClass.runMiddleware
  rw [hH]

/-- Through `MongoHelperClass.runMiddleware` no registered callback can ever
execute and the world is never touched: a camel-case hook name fails the
key-space validation; a name that passes it as an UPPER-CASE key misses
every own key of `middlewareStack`, so the loop runs over `|| []`; and a
name that passes it as an inherited `Object.prototype` property hits the
same inherited (non-iterable) value in `middlewareStack` and throws a
`TypeError` before the loop body starts. -/
theorem runMiddleware_inert (middleware : Option (MongoMiddleware V σ))
    (hook : String) (args : List V) (s : σ) :
    MongoHelperClass.runMiddleware middleware hook args s = Res.ok s ()
      ∨ ∃ e, MongoHelperClass.runMiddleware middleware hook args s
          = Res.err s e := by
  cases middleware with
  | none => exact Or.inr ⟨.middlewareRequired, rfl⟩
  | some m =>
    cases hH : MongoMiddleware.Hooks hook with
    | undefined =>
      exact Or.inr ⟨.invalidHook hook,
        runMiddleware_eq_err_of_undefined m hook args s hH⟩
    | own v =>
      left
      rw [runMiddleware_eq_run_of_own m hook v args s hH,
        MongoMiddleware.run_eq_of_undefined m hook args s
          (MongoMiddleware.lookup_of_hooks_key m hook v hH)]
    | inherited =>
      refine Or.inr ⟨.typeError, ?_⟩
      have hp := MongoMiddleware.hooks_inherited_mem hook hH
      have hnv : hook ∉ MongoMiddleware.hookValues :=
        MongoMiddleware.protoKeys_not_hookValues hook hp
      rw [runMiddleware_eq_run_of_inherited m hook args s hH,
        MongoMiddleware.run_eq_of_inherited m hook args s
          (MongoMiddleware.lookup_inherited m hook hnv hp)]

/-- Any camel-case hook value fails the validation inside `runMiddleware`,
leaving the world untouched. -/
theorem runMiddleware_value_invalid (m : MongoMiddleware V σ) (hook : String)
    (hmem : hook ∈ MongoMiddleware.hookValues) (args : List V) (s : σ) :
    MongoHelperClass.runMiddleware (some m) hook args s
      = Res.err s (.invalidHook hook) := by
  fin_cases hmem <;> rfl

/-- The listener invocations recorded in the final world of a result. -/
def firedOf : Res MongoDocument α → List (String × Nat)
  | .ok w _ => w.fired
  | .err w _ => w.fired

/-- Mapping listeners to invocations of a fixed event name other than
`OnSave` contributes nothing to the `OnSave` filter. -/
theorem filter_map_const_ne (l : List (String × Nat)) (name : String)
    (hne : name ≠ "OnSave") :
    (l.map (fun p => (name, p.2))).filter (fun p => p.1 = "OnSave") = [] := by
  induction l with
  | nil => rfl
  | cons a t ih => simp [ih, hne]

/-- Emitting any event other than `OnSave` leaves the `OnSave` listener
invocations unchanged. -/
theorem emit_fired_filter (w : MongoDocument) (name : String)
    (hne : name ≠ "OnSave") :
    ((MongoDocument.emit name w).fired).filter (fun p => p.1 = "OnSave")
      = w.fired.filter (fun p => p.1 = "OnSave") := by
  unfold MongoDocument.emit
  rw [List.filter_append, filter_map_const_ne _ name hne, List.append_nil]

/-- C4: for every hook name in the closed set, registering a family of
instrumented callbacks one `use` call at a time and then calling `run`
invokes every callback exactly once in registration order — the trace grows
by `0, …, n-1` — each awaited to completion before the next begins; if
callback `k` is the first to fail, iteration stops there and its error
propagates with no later callback executed; and running the hook with zero
registered callbacks is a no-op success. -/
theorem middleware_register_run_order_c4 (h : String)
    (hmem : h ∈ MongoMiddleware.hookValues) (fate : Nat → Option JsError)
    (args : List JsVal) (s0 : List Nat) (n : Nat) :
    MongoMiddleware.registerAll
        (MongoMiddleware.new : MongoMiddleware JsVal (List Nat)) h
        ((List.range n).map (logger fate))
      = Except.ok (MongoMiddleware.stackSet MongoMiddleware.new h
          ((List.range n).map (logger fate)))
    ∧ ((∀ i ∈ List.range n, fate i = none) →
        MongoMiddleware.run
          (MongoMiddleware.stackSet
            (MongoMiddleware.new : MongoMiddleware JsVal (List Nat)) h
            ((List.range n).map (logger fate))) h args s0
          = Res.ok (s0 ++ List.range n) ())
    ∧ (∀ (pre : List Nat) (k : Nat) (post : List Nat) (e : JsError),
        List.range n = pre ++ k :: post → (∀ i ∈ pre, fate i = none) →
        fate k = some e →
        MongoMiddleware.run
          (MongoMiddleware.stackSet
            (MongoMiddleware.new : MongoMiddleware JsVal (List Nat)) h
            ((List.range n).map (logger fate))) h args s0
          = Res.err ((s0 ++ pre) ++ [k]) e)
    ∧ (n = 0 →
        MongoMiddleware.run
          (MongoMiddleware.stackSet
            (MongoMiddleware.new : MongoMiddleware JsVal (List Nat)) h
            ((List.range n).map (logger fate))) h args s0
          = Res.ok s0 ()) := by
  have hrun : MongoMiddleware.run
      (MongoMiddleware.stackSet
        (MongoMiddleware.new : MongoMiddleware JsVal (List Nat)) h
        ((List.range n).map (logger fate))) h args s0
      = MongoMiddleware.runFns ((List.range n).map (logger fate)) args s0 := by
    unfold MongoMiddleware.run
    rw [MongoMiddleware.lookup_set_self MongoMiddleware.new h hmem
      ((List.range n).map (logger fate))]
  refine ⟨?_, ?_, ?_, ?_⟩
  · have hr := MongoMiddleware.registerAll_eq h hmem
      ((List.range n).map (logger fate))
      (MongoMiddleware.new : MongoMiddleware JsVal (List Nat)) []
      (MongoMiddleware.lookup_new h hmem)
    simpa using hr
  · intro hall
    rw [hrun,
      MongoMiddleware.runFns_loggers_ok fate args (List.range n) s0 hall]
  · intro pre k post e hsplit hpre hk
    rw [hrun, hsplit,
      MongoMiddleware.runFns_loggers_err fate args k e post hk pre s0 hpre]
  · intro hn0
    subst hn0
    rw [hrun]
    rfl

/-- C4 witness: two always-succeeding callbacks registered under
`beforeCreate` run in order, the trace recording `[0, 1]`. -/
theorem middleware_register_run_order_c4_witness :
    MongoMiddleware.run
      (MongoMiddleware.stackSet
        (MongoMiddleware.new : MongoMiddleware JsVal (List Nat)) "beforeCreate"
        ((List.range 2).map (logger (fun _ => none)))) "beforeCreate" [] []
      = Res.ok ([] ++ List.range 2) () :=
  (middleware_register_run_order_c4 "beforeCreate" (by decide) (fun _ => none)
    [] [] 2).2.1 (fun _ _ => rfl)

/-- C2 counterexample: `bogus` is not one of the eight recognized hook
identifiers, yet running it through `MongoMiddleware.run` resolves as a
silent no-op instead of failing with `InvalidHookName`; and for the
`Object.prototype`-inherited name `constructor` — also unrecognized — both
registering and running fail with a `TypeError`, not with `InvalidHookName`. -/
theorem run_unknown_hook_succeeds_c2_cex :
    "bogus" ∉ MongoMiddleware.hookValues
    ∧ MongoMiddleware.run
        (MongoMiddleware.new : MongoMiddleware JsVal (List Nat)) "bogus" [] []
      = Res.ok [] ()
    ∧ "constructor" ∉ MongoMiddleware.hookValues
    ∧ MongoMiddleware.use
        (MongoMiddleware.new : MongoMiddleware JsVal (List Nat)) "constructor"
        (logger (fun _ => none) 0)
      = Except.error JsError.typeError
    ∧ MongoMiddleware.run
        (MongoMiddleware.new : MongoMiddleware JsVal (List Nat)) "constructor"
        [] []
      = Res.err [] JsError.typeError :=
  ⟨by decide, rfl, by decide, rfl, rfl⟩

/-- C2 amended: for every string outside the eight recognized hook
identifiers no callback ever executes and the world is unchanged, but the
failure mode is not the claimed uniform `InvalidHookName`: off the
`Object.prototype` chain, `use` throws `InvalidHookName` while `run`
resolves as a silent no-op (the `undefined` lookup falls back to `[]`); for
an inherited name (`constructor`, `toString`, `__proto__`, …) the truthy
inherited value makes `use` throw a `TypeError` (it has no `.push`) and
`run` reject with a `TypeError` (`for…of` over a non-iterable). -/
theorem use_run_unknown_hook_c2 (s : String)
    (hs : s ∉ MongoMiddleware.hookValues) :
    (s ∉ objectProtoKeys →
      (∀ (m : MongoMiddleware V σ) (fn : Callback V σ),
        MongoMiddleware.use m s fn = Except.error (.invalidHook s))
      ∧ (∀ (m : MongoMiddleware V σ) (args : List V) (st : σ),
        MongoMiddleware.run m s args st = Res.ok st ()))
    ∧ (s ∈ objectProtoKeys →
      (∀ (m : MongoMiddleware V σ) (fn : Callback V σ),
        MongoMiddleware.use m s fn = Except.error JsError.typeError)
      ∧ (∀ (m : MongoMiddleware V σ) (args : List V) (st : σ),
        MongoMiddleware.run m s args st = Res.err st JsError.typeError)) := by
  constructor
  · intro hp
    constructor
    · intro m fn
      unfold MongoMiddleware.use
      rw [MongoMiddleware.lookup_undefined m s hs hp]
    · intro m args st
      exact MongoMiddleware.run_eq_of_undefined m s args st
        (MongoMiddleware.lookup_undefined m s hs hp)
  · intro hp
    constructor
    · intro m fn
      unfold MongoMiddleware.use
      rw [MongoMiddleware.lookup_inherited m s hs hp]
    · intro m args st
      exact MongoMiddleware.run_eq_of_inherited m s args st
        (MongoMiddleware.lookup_inherited m s hs hp)

/-- C2 amended witness: registering under `bogus` throws
`Invalid middleware hook: bogus`, and running the inherited name `toString`
rejects with a `TypeError`. -/
theorem use_run_unknown_hook_c2_witness :
    MongoMiddleware.use
      (MongoMiddleware.new : MongoMiddleware JsVal (List Nat)) "bogus"
      (logger (fun _ => none) 0)
      = Except.error (.invalidHook "bogus")
    ∧ MongoMiddleware.run
        (MongoMiddleware.new : MongoMiddleware JsVal (List Nat)) "toString"
        [] []
      = Res.err [] JsError.typeError :=
  ⟨((use_run_unknown_hook_c2 "bogus" (by decide)).1 (by decide)).1
      MongoMiddleware.new (logger (fun _ => none) 0),
   ((use_run_unknown_hook_c2 "toString" (by decide)).2 (by decide)).2
      MongoMiddleware.new [] []⟩

/-- C9: no error is swallowed or retried by `runCRUDOperation`: a failure in
the before-hook stage, the delegated operation, or the after-hook stage
aborts the remaining steps and surfaces unchanged — same error, same world —
to the immediate caller, with no partial result; only when all three stages
resolve is the operation's result returned. -/
theorem runCRUD_propagates_errors_c9 (operation : List V → σ → Res σ V)
    (middleware : Option (MongoMiddleware V σ)) (hooks : HookPair)
    (opName : V) (args : List V) (s : σ) :
    (∀ (s1 : σ) (e : JsError),
      MongoHelperClass.runMiddleware middleware hooks.before args s
          = Res.err s1 e →
      MongoHelperClass.runCRUDOperation operation middleware hooks opName
          args s = Res.err s1 e)
    ∧ (∀ (s1 s2 : σ) (e : JsError),
      MongoHelperClass.runMiddleware middleware hooks.before args s
          = Res.ok s1 () →
      operation args s1 = Res.err s2 e →
      MongoHelperClass.runCRUDOperation operation middleware hooks opName
          args s = Res.err s2 e)
    ∧ (∀ (s1 s2 : σ) (v : V) (s3 : σ) (e : JsError),
      MongoHelperClass.runMiddleware middleware hooks.before args s
          = Res.ok s1 () →
      operation args s1 = Res.ok s2 v →
      MongoHelperClass.runMiddleware middleware hooks.after [v] s2
          = Res.err s3 e →
      MongoHelperClass.runCRUDOperation operation middleware hooks opName
          args s = Res.err s3 e)
    ∧ (∀ (s1 s2 : σ) (v : V) (s3 : σ),
      MongoHelperClass.runMiddleware middleware hooks.before args s
          = Res.ok s1 () →
      operation args s1 = Res.ok s2 v →
      MongoHelperClass.runMiddleware middleware hooks.after [v] s2
          = Res.ok s3 () →
      MongoHelperClass.runCRUDOperation operation middleware hooks opName
          args s = Res.ok s3 v) := by
  refine ⟨?_, ?_, ?_, ?_⟩
  · intro s1 e h1
    simp only [MongoHelperClass.runCRUDOperation, h1, Res.andThen]
  · intro s1 s2 e h1 h2
    simp only [MongoHelperClass.runCRUDOperation, h1, h2, Res.andThen]
  · intro s1 s2 v s3 e h1 h2 h3
    simp only [MongoHelperClass.runCRUDOperation, h1, h2, h3, Res.andThen]
  · intro s1 s2 v s3 h1 h2 h3
    simp only [MongoHelperClass.runCRUDOperation, h1, h2, h3, Res.andThen]

/-- C9 witness: with a hook pair that passes the key-space validation, a
failing delegated operation surfaces its own error unchanged and the
after-hook stage never turns it into anything else. -/
theorem runCRUD_propagates_errors_c9_witness :
    MongoHelperClass.runCRUDOperation
      (fun (_ : List JsVal) (st : List Nat) => Res.err st (.external 3))
      (some (MongoMiddleware.new : MongoMiddleware JsVal (List Nat)))
      ⟨"BEFORE_CREATE", "AFTER_CREATE"⟩ JsVal.null [] []
      = Res.err [] (.external 3) :=
  (runCRUD_propagates_errors_c9
    (fun (_ : List JsVal) (st : List Nat) => Res.err st (.external 3))
    (some MongoMiddleware.new) ⟨"BEFORE_CREATE", "AFTER_CREATE"⟩ JsVal.null
    [] []).2.1 [] [] (.external 3) rfl rfl

/-- C1 (code-bug evidence): every CRUD call of the collection and document
wrappers throws `Invalid middleware hook: before…` — raised by the key-space
validation inside `runMiddleware` — before any registered hook callback runs
and before the delegated driver operation begins, for every driver, every
registry and every input; the world comes back untouched.  The specified
before-hook → operation → after-hook sequence therefore never starts. -/
theorem crud_calls_fail_before_hooks_c1
    (dSave : JsVal → σ → Res σ JsVal)
    (dFindById : String → σ → Res σ (Option MongooseDoc))
    (dFind : JsVal → JsVal → JsVal → σ → Res σ (List MongooseDoc))
    (dFindOne : JsVal → JsVal → JsVal → σ → Res σ (Option MongooseDoc))
    (dFOAU : JsVal → JsVal → JsVal → σ → Res σ JsVal)
    (dDel dDelMany : JsVal → σ → Res σ JsVal)
    (mw : MongoMiddleware JsVal σ)
    (document query projection options updateDoc : JsVal) (id : String)
    (s : σ)
    (dDocSave : MongoDocument → Res MongoDocument MongooseDoc)
    (dDocFOAU : Option String → JsVal → MongoDocument →
      Res MongoDocument MongooseDoc)
    (dDocDel : MongoDocument → Res MongoDocument JsVal)
    (mwd : MongoMiddleware JsVal MongoDocument)
    (w : MongoDocument) (updatedFields : JsVal) :
    MongoCollection.create dSave mw document s
        = Res.err s (.invalidHook "beforeCreate")
    ∧ MongoCollection.findById dFindById mw id s
        = Res.err s (.invalidHook "beforeRead")
    ∧ MongoCollection.read dFind mw query projection options s
        = Res.err s (.invalidHook "beforeRead")
    ∧ MongoCollection.readOne dFindOne mw query projection options s
        = Res.err s (.invalidHook "beforeRead")
    ∧ MongoCollection.update dFOAU mw query updateDoc options s
        = Res.err s (.invalidHook "beforeUpdate")
    ∧ MongoCollection.delete dDel mw query s
        = Res.err s (.invalidHook "beforeDelete")
    ∧ MongoCollection.deleteMany dDelMany mw query s
        = Res.err s (.invalidHook "beforeDelete")
    ∧ MongoDocument.update dDocFOAU mwd updatedFields w
        = Res.err w (.invalidHook "beforeUpdate")
    ∧ MongoDocument.save dDocSave dDocFOAU mwd w
        = Res.err w (.invalidHook
            (if w.originalDocument.isNew then "beforeCreate"
             else "beforeUpdate"))
    ∧ MongoDocument.delete dDocDel mwd w
        = Res.err w (.invalidHook "beforeDelete") := by
  refine ⟨rfl, rfl, rfl, rfl, rfl, rfl, rfl, rfl, ?_, rfl⟩
  unfold MongoDocument.save
  cases hn : w.originalDocument.isNew <;> rfl

/-- C3 (code-bug evidence): hook callbacks never receive the operation's
arguments because they never run at all: through `runMiddleware` every hook
invocation either throws with the world untouched or no-ops with the world
untouched, for every middleware instance and every hook string; in
particular `read(query, projection, options)` — whose call site moreover
passes `query` in the `operationName` slot, so the spread arguments are only
`[projection, options]` — throws `Invalid middleware hook: beforeRead`
before any before-hook callback could observe the inputs, and before the
driver query runs. -/
theorem hooks_never_receive_args_c3 :
    (∀ (V σ : Type) (middleware : Option (MongoMiddleware V σ))
        (hook : String) (args : List V) (s : σ),
      MongoHelperClass.runMiddleware middleware hook args s = Res.ok s ()
        ∨ ∃ e, MongoHelperClass.runMiddleware middleware hook args s
            = Res.err s e)
    ∧ (∀ (σ : Type)
        (dFind : JsVal → JsVal → JsVal → σ → Res σ (List MongooseDoc))
        (mw : MongoMiddleware JsVal σ) (query projection options : JsVal)
        (s : σ),
      MongoCollection.read dFind mw query projection options s
        = Res.err s (.invalidHook "beforeRead")) :=
  ⟨fun _ _ middleware hook args s => runMiddleware_inert middleware hook args s,
   fun _ _ _ _ _ _ _ => rfl⟩

/-- C5 (code-bug evidence): `save()` never reaches its success path: on a
handle whose wrapped document is new it throws
`Invalid middleware hook: beforeCreate`, and on a non-new handle
`Invalid middleware hook: beforeUpdate`, in both cases returning the handle
state — `isNew` flag, stored fields, listener table and fired events —
exactly as it was, so no `OnCreate` or `OnUpdate` event is ever emitted and
the flag is never flipped. -/
theorem save_never_emits_c5
    (dDocSave : MongoDocument → Res MongoDocument MongooseDoc)
    (dDocFOAU : Option String → JsVal → MongoDocument →
      Res MongoDocument MongooseDoc)
    (mwd : MongoMiddleware JsVal MongoDocument) (w : MongoDocument) :
    (w.originalDocument.isNew = true →
      MongoDocument.save dDocSave dDocFOAU mwd w
        = Res.err w (.invalidHook "beforeCreate"))
    ∧ (w.originalDocument.isNew = false →
      MongoDocument.save dDocSave dDocFOAU mwd w
        = Res.err w (.invalidHook "beforeUpdate")) := by
  constructor <;>
    (intro hn; unfold MongoDocument.save; rw [hn]; rfl)

/-- C5 witness: a first `save()` on a freshly constructed new handle throws
instead of creating, emitting nothing. -/
theorem save_never_emits_c5_witness :
    MongoDocument.save
      (fun w => Res.ok w ⟨some "X", [("name", "A")], false⟩)
      (fun _ _ w => Res.ok w ⟨some "X", [("name", "A")], false⟩)
      MongoMiddleware.new
      ⟨⟨none, [("name", "A")], true⟩, none, [], []⟩
      = Res.err ⟨⟨none, [("name", "A")], true⟩, none, [], []⟩
          (.invalidHook "beforeCreate") :=
  (save_never_emits_c5
    (fun w => Res.ok w ⟨some "X", [("name", "A")], false⟩)
    (fun _ _ w => Res.ok w ⟨some "X", [("name", "A")], false⟩)
    MongoMiddleware.new
    ⟨⟨none, [("name", "A")], true⟩, none, [], []⟩).1 rfl

/-- C6 (code-bug evidence): `findById` on a missing identity does not fail
with `NotFoundError` — it throws `Invalid middleware hook: beforeRead`
before the driver is even consulted — and `readOne` on a non-matching query
does not return the null sentinel without failing: it throws the same hook
error.  The operation closures document the specified intent: had they been
reached, `findById`'s closure throws `NotFoundError` exactly when the driver
finds nothing, and `readOne`'s closure resolves to `null` without failing. -/
theorem findById_readOne_c6
    (dFindById : String → σ → Res σ (Option MongooseDoc))
    (dFindOne : JsVal → JsVal → JsVal → σ → Res σ (Option MongooseDoc))
    (mw : MongoMiddleware JsVal σ) (id : String)
    (query projection options : JsVal) (s s1 : σ) (args : List JsVal) :
    MongoCollection.findById dFindById mw id s
        = Res.err s (.invalidHook "beforeRead")
    ∧ MongoCollection.readOne dFindOne mw query projection options s
        = Res.err s (.invalidHook "beforeRead")
    ∧ (dFindById id s = Res.ok s1 none →
        MongoCollection.findByIdOp dFindById id args s
          = Res.err s1 (.notFound id))
    ∧ (dFindOne query projection options s = Res.ok s1 none →
        MongoCollection.readOneOp dFindOne query projection options args s
          = Res.ok s1 JsVal.null) := by
  refine ⟨rfl, rfl, ?_, ?_⟩
  · intro hd
    unfold MongoCollection.findByIdOp
    rw [hd]
    rfl
  · intro hd
    unfold MongoCollection.readOneOp
    rw [hd]
    rfl

/-- C6 witness: on an always-empty driver, the `findById` closure throws
`NotFoundError` for the identity `X`. -/
theorem findById_readOne_c6_witness :
    MongoCollection.findByIdOp
      (fun _ (st : List Nat) => Res.ok st (none : Option MongooseDoc)) "X" [] []
      = Res.err [] (.notFound "X") :=
  (findById_readOne_c6
    (fun _ (st : List Nat) => Res.ok st (none : Option MongooseDoc))
    (fun _ _ _ st => Res.ok st none) MongoMiddleware.new "X"
    JsVal.null JsVal.null JsVal.null [] [] []).2.2.1 rfl

/-- C7: `copy()` synchronously produces a new handle whose field values
equal the original's, whose external identity is cleared, whose hook
registry is the fresh empty registry and whose listener table and fired
record are empty; in particular, whenever the original carries identity `X`
the copy does not, so a later save of the copy cannot address the original's
persisted record.  `copy` is a pure function of the handle: it takes no
driver and invokes no hook. -/
theorem copy_c7 (w : MongoDocument) (x : String) :
    (w.copy).1.originalDocument.fields = w.originalDocument.fields
    ∧ (w.copy).1.originalDocument._id = none
    ∧ (w.copy).2 = MongoMiddleware.new
    ∧ (w.copy).1.listeners = []
    ∧ (w.copy).1.fired = []
    ∧ (w.copy).1.originalDocument.isNew = true
    ∧ (w.originalDocument._id = some x →
        (w.copy).1.originalDocument._id ≠ some x) :=
  ⟨rfl, rfl, rfl, rfl, rfl, rfl, fun _ h => Option.noConfusion h⟩

/-- C7 witness: copying a handle with fields `name = A, age = 1` and
identity `X` yields identical fields and an identity distinct from `X`. -/
theorem copy_c7_witness :
    (MongoDocument.copy
      ⟨⟨some "X", [("name", "A"), ("age", "1")], false⟩, none,
        [("OnUpdate", 5)], [("OnCreate", 9)]⟩).1.originalDocument._id
      ≠ some "X" :=
  (copy_c7
    ⟨⟨some "X", [("name", "A"), ("age", "1")], false⟩, none,
      [("OnUpdate", 5)], [("OnCreate", 9)]⟩ "X").2.2.2.2.2.2 rfl

/-- C8: `connect()` is a no-op when the connected flag is already set; on a
failed attempt the connection value is returned unchanged — so the flag
stays false — and the failure propagates; a successful attempt sets the
flag; `close()` is the symmetric idempotent operation, a no-op when not
connected. -/
theorem connect_close_idempotent_c8 (c : MongoConnection) (e : JsError)
    (attempt : Option JsError) :
    (c.isConnected = true → c.connect attempt = (c, none))
    ∧ (c.isConnected = false → c.connect (some e) = (c, some e))
    ∧ (c.isConnected = false →
        c.connect none = ({ c with isConnected := true }, none))
    ∧ (c.isConnected = false → c.close attempt = (c, none))
    ∧ (c.isConnected = true → c.close (some e) = (c, some e)) := by
  refine ⟨fun h => ?_, fun h => ?_, fun h => ?_, fun h => ?_, fun h => ?_⟩ <;>
    simp [MongoConnection.connect, MongoConnection.close, h]

/-- C8 witness: a failing first `connect()` on a fresh connection leaves the
flag false and surfaces the error. -/
theorem connect_close_idempotent_c8_witness :
    MongoConnection.connect ⟨"mongodb://localhost:27017", "myDatabase", false⟩
      (some (.external 1))
      = (⟨"mongodb://localhost:27017", "myDatabase", false⟩,
          some (.external 1)) :=
  (connect_close_idempotent_c8
    ⟨"mongodb://localhost:27017", "myDatabase", false⟩ (.external 1)
    (some (.external 1))).2.1 rfl

/-- C10: a callback registered through `onSave` subscribes to the event name
`OnSave`, and no operation of this layer ever invokes it: `save`, `update`
and `delete` record no listener invocation at all on their actual (failing)
paths, and even their success continuations only emit `OnCreate`,
`OnUpdate` or `OnDelete`, none of which fires a listener registered under
`OnSave`. -/
theorem onSave_listener_never_invoked_c10 (cb : Nat) (w : MongoDocument)
    (dDocSave : MongoDocument → Res MongoDocument MongooseDoc)
    (dDocFOAU : Option String → JsVal → MongoDocument →
      Res MongoDocument MongooseDoc)
    (dDocDel : MongoDocument → Res MongoDocument JsVal)
    (mwd : MongoMiddleware JsVal MongoDocument) (updatedFields v : JsVal)
    (w1 : MongoDocument) :
    (MongoDocument.onSave cb w).listeners = w.listeners ++ [("OnSave", cb)]
    ∧ firedOf (MongoDocument.save dDocSave dDocFOAU mwd
          (MongoDocument.onSave cb w)) = (MongoDocument.onSave cb w).fired
    ∧ firedOf (MongoDocument.update dDocFOAU mwd updatedFields
          (MongoDocument.onSave cb w)) = (MongoDocument.onSave cb w).fired
    ∧ firedOf (MongoDocument.delete dDocDel mwd
          (MongoDocument.onSave cb w)) = (MongoDocument.onSave cb w).fired
    ∧ (firedOf (MongoDocument.saveThen v w1)).filter
          (fun p => p.1 = "OnSave")
        = w1.fired.filter (fun p => p.1 = "OnSave")
    ∧ (firedOf (MongoDocument.updateThen v w1)).filter
          (fun p => p.1 = "OnSave")
        = w1.fired.filter (fun p => p.1 = "OnSave")
    ∧ (firedOf (MongoDocument.deleteThen v w1)).filter
          (fun p => p.1 = "OnSave")
        = w1.fired.filter (fun p => p.1 = "OnSave") := by
  refine ⟨rfl, ?_, rfl, rfl, ?_, ?_, ?_⟩
  · unfold MongoDocument.save
    cases hn : (MongoDocument.onSave cb w).originalDocument.isNew <;> rfl
  · unfold MongoDocument.saveThen
    cases hn : w1.originalDocument.isNew <;> cases v <;>
      simp only [firedOf] <;>
      exact emit_fired_filter w1 _ (by decide)
  · unfold MongoDocument.updateThen
    cases v <;> simp only [firedOf] <;>
      exact emit_fired_filter w1 _ (by decide)
  · unfold MongoDocument.deleteThen
    simp only [firedOf]
    exact emit_fired_filter w1 _ (by decide)

end EzMongo
